import Mathlib

/-!
Verification of the resumable download orchestrator
(`src/fui_kk/download_reports.py`) against its specification.

The program text is shallowly embedded: Python strings become `List Char`,
the browser/HTTP/locale/filesystem capabilities become oracle functions in
an `Env` record, and `download_files` becomes a pure function from the
environment, the CLI arguments and the initial on-disk state to a run
result (an event trace, an error option and the final completion log).
-/

/-- Text is modelled as a list of characters (Python `str`). -/
abbrev Str := List Char

/-- Conversion from a Lean string literal to the `Str` model. -/
def txt (s : String) : Str := s.data

/-- Python `content.split("\n")` (from `read_list`, line 118): splitting an
empty text yields `[""]`, and a trailing newline yields a trailing empty
piece. `consHead` prepends a character to the first piece. -/
def consHead (c : Char) : List Str → List Str
  | [] => [[c]]
  | l :: ls => (c :: l) :: ls

/-- Python `str.split` on the newline separator. -/
def splitNl : Str → List Str
  | [] => [[]]
  | c :: rest => if c = '\n' then [] :: splitNl rest else consHead c (splitNl rest)

/-- Concatenation of lines, each terminated by a newline: the shape of the
completion-log file produced by repeated `f.write(form_id+"\n")` appends
(line 218). -/
def joinNl : List Str → Str
  | [] => []
  | i :: rest => i ++ '\n' :: joinNl rest

/-- Python substring containment `needle in hay` (used by the filter,
line 161). -/
def hasSub (hay needle : Str) : Bool :=
  if needle.isPrefixOf hay then true
  else
    match hay with
    | [] => false
    | _ :: t => hasSub t needle

/-- Python `s.replace(old, new)` (all leftmost non-overlapping occurrences),
with explicit fuel equal to the text length so the definition is structural.
Used for the `preview` → `results`/`download`/`report/web` URL rewrites
(lines 195, 204, 209). -/
def replaceAllAux (pat rep : Str) : Nat → Str → Str
  | 0, s => s
  | _ + 1, [] => []
  | fuel + 1, c :: rest =>
      if pat.isPrefixOf (c :: rest) ∧ pat ≠ [] then
        rep ++ replaceAllAux pat rep fuel ((c :: rest).drop pat.length)
      else
        c :: replaceAllAux pat rep fuel rest

/-- Python `s.replace(old, new)`. -/
def replaceAll (s pat rep : Str) : Str := replaceAllAux pat rep s.length s

/-- Numeric value of a digit string. -/
def digitsVal (ds : Str) : Nat := ds.foldl (fun a c => a * 10 + (c.toNat - '0'.toNat)) 0

/-- Python `int(text)` on the stripped text (used inside `try_to_find_int`,
line 81), modelled for ordinary decimal literals: surrounding whitespace is
ignored, an optional sign precedes a nonempty run of ASCII digits; anything
else fails. -/
def pyInt (s : Str) : Option Int :=
  let t := ((s.dropWhile Char.isWhitespace).reverse.dropWhile Char.isWhitespace).reverse
  match t with
  | '-' :: ds => if !ds.isEmpty && ds.all Char.isDigit then some (-(digitsVal ds : Int)) else none
  | '+' :: ds => if !ds.isEmpty && ds.all Char.isDigit then some ((digitsVal ds : Int)) else none
  | ds => if !ds.isEmpty && ds.all Char.isDigit then some ((digitsVal ds : Int)) else none

/-- Match of the regex `id=[0-9]{1,10}` (line 109) anchored at the start of
the text: on success, the digit part of the match (greedy, at most ten
digits). -/
def matchHere : Str → Option Str
  | 'i' :: 'd' :: '=' :: rest =>
      let ds := (rest.takeWhile Char.isDigit).take 10
      if ds.isEmpty then none else some ds
  | _ => none

/-- Leftmost regex search for `id=[0-9]{1,10}` returning the digits of the
match, or the empty text when there is no match: `re.search` scans positions
left to right. -/
def get_id_core : Str → Str
  | [] => []
  | c :: rest =>
    match matchHere (c :: rest) with
    | some ds => ds
    | none => get_id_core rest

/-- Identifier extraction `get_id` (lines 108-113): the digits of the first
`id=[0-9]{1,10}` match of the URL (`m.group(0)[3:]` drops the `id=` marker),
or `""` when the pattern does not occur. -/
def get_id (url : Str) : Str := get_id_core url

/-- Completion-log reading `read_list` (lines 115-120): a missing file gives
`[]`, an existing file is split on newlines (note the trailing empty piece
of any newline-terminated content). -/
def read_list : Option Str → List Str
  | none => []
  | some c => splitNl c

example : get_id (txt "https://x/preview.html?id=12345") = txt "12345" := by decide
example : get_id (txt "https://x/preview.html") = txt "" := by decide
example : get_id (txt "a?id=123456789012") = txt "1234567890" := by decide
example : get_id (txt "http://x?grid=123") = txt "123" := by decide
example : get_id (txt "id=id=5") = txt "5" := by decide
example : splitNl (txt "1\n2\n") = [txt "1", txt "2", txt ""] := by decide
example : splitNl (txt "") = [txt ""] := by decide
example : read_list (some (txt "1\n")) = [txt "1", txt ""] := by decide
example : replaceAll (txt "a/preview?id=1") (txt "preview") (txt "results") = txt "a/results?id=1" := by decide
example : pyInt (txt " 42 ") = some 42 := by decide
example : pyInt (txt "-5") = some (-5) := by decide
example : pyInt (txt "4a") = none := by decide
example : pyInt (txt "") = none := by decide
example : hasSub (txt "abcd") (txt "bc") = true := by decide
example : hasSub (txt "abcd") (txt "ca") = false := by decide
example : hasSub (txt "abcd") (txt "") = true := by decide

/-- Summary statistics of one form (spec section 3): the three counters read
from the results page. -/
structure Stats where
  answered : Int
  started : Int
  invited : Int
deriving DecidableEq, Repr

/-- Artifact kinds (spec glossary): tabular export, rendered report, summary
statistics, each written into its own subdirectory of the output tree. -/
inductive Kind where
  | tsv
  | html
  | stats
deriving DecidableEq, Repr

/-- Observable events of a run, in chronological order: a line printed to
standard output, an artifact file written (kind, cleaned file name, content),
or a form identifier appended to the completion log. -/
inductive Event where
  | printed (line : Str)
  | wrote (kind : Kind) (fname : Str) (content : Str)
  | logged (fid : Str)
deriving DecidableEq, Repr

/-- Fatal faults of a run: a form name the output encoding cannot render
(`UnicodeEncodeError`, lines 182-194), an exhausted-redirects transport
fault from the bridged HTTP client (`TooManyRedirects`, caught at line 229),
or a filesystem fault while writing an artifact (uncaught `OSError`). -/
inductive RunError where
  | encoding (name fid : Str)
  | transport (url : Str)
  | writeFail (kind : Kind) (fname : Str)
deriving DecidableEq, Repr

/-- Relevant command-line arguments (lines 37-43): the optional name filter
and the three artifact-kind switches. -/
structure Args where
  filter : Option Str
  tsv : Bool
  html : Bool
  stats : Bool

/-- External capabilities of a run, all deterministic oracles:
`liveForms` is the (name, href) sequence the form-listing page would yield
(lines 155-157); `dom results_url selector` is the text of the first element
matching `selector` after navigating to `results_url`, `none` when the
element is missing (line 81); `fetch url` is the body returned by the
bridged HTTP client, `none` on an exhausted-redirects transport fault
(lines 205, 210); `writeOk kind fname` tells whether writing that artifact
file succeeds; `encodable name` tells whether the progress line naming the
form can be rendered in the active output encoding (lines 177-182);
`fclean` is the path sanitizer `filename_clean` (line 202), imported from a
module outside this file and kept abstract — the spec treats it as an
external collaborator producing safe names. -/
structure Env where
  liveForms : List (Str × Str)
  dom : Str → Str → Option Str
  fetch : Str → Option Str
  writeOk : Kind → Str → Bool
  encodable : Str → Bool
  fclean : Str → Str

/-- On-disk state of the output directory before a run: content of
`downloaded.txt` (the completion log) and of `formdata.dat` (the pickled
catalog), each `none` when the file is absent. -/
structure FS where
  downloadedTxt : Option Str
  formdataDat : Option (List (Str × Str))

/-- Selector of the delivered-submissions counter (line 198). -/
def selDelivered : Str := txt ".delivered-submissions .number"

/-- Selector of the saved-submissions counter (line 199). -/
def selSaved : Str := txt ".saved-submissions .number"

/-- Selector of the valid-invitations counter (line 200). -/
def selInvited : Str := txt ".valid-invitations .number"

/-- Lenient counter read `try_to_find_int` (lines 79-83): a missing element
or an unparsable text yields 0. -/
def try_to_find_int (dom : Str → Option Str) (sel : Str) : Int :=
  match dom sel with
  | none => 0
  | some t => (pyInt t).getD 0

/-- Stats extraction (lines 197-201): the three counters of the results page
the browser is currently on, each read independently. -/
def readStats (dom : Str → Option Str) : Stats :=
  { answered := try_to_find_int dom selDelivered
    started := try_to_find_int dom selSaved
    invited := try_to_find_int dom selInvited }

/-- Decimal rendering of an integer, as Python `str.format` renders the
stats figures. -/
def intToStr (i : Int) : Str := (toString i).data

/-- Decimal rendering of a natural number, for the filter report line. -/
def natToStr (n : Nat) : Str := (toString n).data

/-- Report wrapper `render_html` (lines 85-106): the fetched report markup
wrapped in a minimal document that prepends the three stats figures and the
display name. -/
def render_html (name : Str) (stats : Stats) (content : Str) : Str :=
  txt "\n    <html>\n        <head>\n            <meta charset=\"utf-8\" />\n        </head>\n        <body>\n            <p>Delivered replies: " ++
  intToStr stats.answered ++
  txt "</p>\n            <p>Commenced replies: " ++
  intToStr stats.started ++
  txt "</p>\n            <p>Number of sent invitations: " ++
  intToStr stats.invited ++
  txt "</p>\n            <hr />\n            <h1>" ++
  name ++
  txt "</h1>\n            " ++
  content ++
  txt "\n        </body>\n    </html>\n    "

/-- Serialization `json.dumps(stats)` (line 214) of the flat stats record,
with the dict insertion order of line 197-201 and default separators. -/
def statsJson (st : Stats) : Str :=
  txt "\x7b\"answered\": " ++ intToStr st.answered ++
  txt ", \"started\": " ++ intToStr st.started ++
  txt ", \"invited\": " ++ intToStr st.invited ++ txt "\x7d"

/-- Progress line of a skipped item (line 179). -/
def skipLine (name fid : Str) : Str :=
  txt "Skipping " ++ name ++ txt " (id=" ++ fid ++ txt ")"

/-- Progress line of a fetched item (line 181). -/
def fetchLine (name fid : Str) : Str :=
  txt "Fetching " ++ name ++ txt " (id=" ++ fid ++ txt ")"

/-- Whether an artifact kind is requested by the arguments (the three
`if args.X:` guards of lines 203, 208, 213). -/
def requested (args : Args) : Kind → Bool
  | .tsv => args.tsv
  | .html => args.html
  | .stats => args.stats

/-- Fetch-and-write of one artifact kind over the bridged HTTP client
(lines 203-211): skipped entirely when the kind is not requested; a failed
fetch is an exhausted-redirects transport fault; the written content is the
response body transformed by `tr` (identity for tsv, the report wrapper for
html). -/
def fetchKind (env : Env) (doIt : Bool) (kind : Kind) (u : Str) (nc : Str)
    (tr : Str → Str) : Except RunError (List Event) :=
  if doIt then
    match env.fetch u with
    | none => .error (.transport u)
    | some body =>
      if env.writeOk kind nc then .ok [.wrote kind nc (tr body)]
      else .error (.writeFail kind nc)
  else .ok []

/-- Local write of one artifact kind with no fetch (the stats JSON,
lines 213-215). -/
def writeKind (env : Env) (doIt : Bool) (kind : Kind) (nc : Str) (content : Str) :
    Except RunError (List Event) :=
  if doIt then
    if env.writeOk kind nc then .ok [.wrote kind nc content]
    else .error (.writeFail kind nc)
  else .ok []

/-- Results-page URL of an entry (line 195): the `preview` action segment
rewritten to `results`. -/
def resultsUrlOf (url : Str) : Str := replaceAll url (txt "preview") (txt "results")

/-- Export endpoint of an entry (line 204): action rewritten to `download`
with the UTF-8 encoding directive appended. -/
def tsvUrlOf (url : Str) : Str :=
  replaceAll url (txt "preview") (txt "download") ++ txt "&encoding=utf-8"

/-- Report endpoint of an entry (line 209): action rewritten to
`report/web` with the open-answers and profile-suppression flags. -/
def htmlUrlOf (url : Str) : Str :=
  replaceAll url (txt "preview") (txt "report/web") ++ txt "&include-open=1&remove-profile=1"

/-- Stats record materialized for an entry by navigating to its results
page (lines 196-201). -/
def statsOf (env : Env) (url : Str) : Stats := readStats (env.dom (resultsUrlOf url))

/-- Processing of one catalog entry (the loop body, lines 174-218), given
the completion-log snapshot `dl` read at run start: the events the entry
generates and an optional fatal fault. An unrenderable name aborts before
any other observable action (the progress print raises in both the skip and
the fetch branch); an already-present identifier produces only the skip
line; otherwise the requested kinds are fetched and written in the order
tsv, html, stats, and the identifier is appended to the completion log
after all of them succeeded. -/
def processItem (env : Env) (args : Args) (dl : List Str) :
    Str × Str → List Event × Option RunError
  | (name, url) =>
    if env.encodable name = false then
      ([], some (.encoding name (get_id url)))
    else if get_id url ∈ dl then
      ([.printed (skipLine name (get_id url))], none)
    else
      match fetchKind env args.tsv .tsv (tsvUrlOf url) (env.fclean name) (fun b => b) with
      | .error e => ([.printed (fetchLine name (get_id url))], some e)
      | .ok evT =>
        match fetchKind env args.html .html (htmlUrlOf url) (env.fclean name)
            (fun b => render_html name (statsOf env url) b) with
        | .error e => ([.printed (fetchLine name (get_id url))] ++ evT, some e)
        | .ok evH =>
          match writeKind env args.stats .stats (env.fclean name)
              (statsJson (statsOf env url)) with
          | .error e => ([.printed (fetchLine name (get_id url))] ++ evT ++ evH, some e)
          | .ok evS =>
            ([.printed (fetchLine name (get_id url))] ++ evT ++ evH ++ evS ++
              [.logged (get_id url)], none)

/-- Sequential processing of the catalog entries (the `for` loop of
line 174): a fatal fault stops the run, leaving the remaining entries
untouched. -/
def runItems (env : Env) (args : Args) (dl : List Str) :
    List (Str × Str) → List Event × Option RunError
  | [] => ([], none)
  | it :: rest =>
    let p := processItem env args dl it
    match p.2 with
    | some e => (p.1, some e)
    | none =>
      let r := runItems env args dl rest
      (p.1 ++ r.1, r.2)

/-- Catalog discovery-or-load (lines 153-158): the persisted catalog is used
when it exists and is non-empty (Python `if not formdata:` also treats a
persisted empty catalog as absent); otherwise the browser navigates to the
form-listing page, the (name, href) sequence is built and persisted. The
result is the catalog together with the number of listing navigations and
the optionally written cache content. -/
def loadCatalog (env : Env) (fs : FS) : List (Str × Str) × Nat × Option (List (Str × Str)) :=
  match fs.formdataDat with
  | some fd => if fd.isEmpty then (env.liveForms, 1, some env.liveForms) else (fd, 0, none)
  | none => (env.liveForms, 1, some env.liveForms)

/-- Filter application (lines 160-163): with no filter argument (or the
falsy empty text) the catalog passes unchanged; otherwise the subsequence of
entries whose name contains the filter text survives. -/
def applyFilter (filt : Option Str) (fd : List (Str × Str)) : List (Str × Str) :=
  match filt with
  | none => fd
  | some f => if f.isEmpty then fd else fd.filter (fun x => hasSub x.1 f)

/-- Counts printed by the filter report (line 162): matched and total. -/
def filterReport (f : Str) (fd : List (Str × Str)) : Nat × Nat :=
  ((fd.filter (fun x => hasSub x.1 f)).length, fd.length)

/-- Printed events of the filter stage: the report line is printed exactly
when a non-empty filter is given. -/
def filterEvents (filt : Option Str) (fd : List (Str × Str)) : List Event :=
  match filt with
  | none => []
  | some f =>
    if f.isEmpty then []
    else
      [.printed (txt "Filter matched " ++ natToStr (filterReport f fd).1 ++
        txt " of " ++ natToStr (filterReport f fd).2 ++ txt " forms")]

/-- Identifiers appended to the completion log during a run, in order. -/
def loggedIds (evs : List Event) : List Str :=
  evs.filterMap fun e =>
    match e with
    | .logged i => some i
    | _ => none

/-- Artifact writes of a run, in order. -/
def writesOf (evs : List Event) : List (Kind × Str × Str) :=
  evs.filterMap fun e =>
    match e with
    | .wrote k n c => some (k, n, c)
    | _ => none

/-- Lines printed to standard output during a run, in order. -/
def printedOf (evs : List Event) : List Str :=
  evs.filterMap fun e =>
    match e with
    | .printed l => some l
    | _ => none

/-- Completion-log content after appending the given identifiers, one
newline-terminated line each (line 217-218): the append-mode open creates
the file, so an absent file stays absent only when nothing is appended. -/
def appendLog (o : Option Str) (ids : List Str) : Option Str :=
  match ids with
  | [] => o
  | _ =>
    some ((match o with
      | none => []
      | some c => c) ++ joinNl ids)

/-- Result of one orchestrator run: the catalog in use after
discovery-or-load, the number of form-listing navigations, the content
written to the catalog cache when the cold path ran, the event trace, the
fatal fault when one occurred, and the final completion-log content. -/
structure RunResult where
  catalog : List (Str × Str)
  listingNavs : Nat
  formdataWritten : Option (List (Str × Str))
  trace : List Event
  err : Option RunError
  finalLog : Option Str

/-- Orchestrator `download_files` (lines 150-218): read the completion-log
snapshot, load or discover the catalog, filter it, process the entries in
order, and accumulate the appended identifiers into the final log. -/
def download_files (env : Env) (args : Args) (fs : FS) : RunResult :=
  let downloaded := read_list fs.downloadedTxt
  let lc := loadCatalog env fs
  let formdata := applyFilter args.filter lc.1
  let r := runItems env args downloaded formdata
  { catalog := lc.1
    listingNavs := lc.2.1
    formdataWritten := lc.2.2
    trace := filterEvents args.filter lc.1 ++ r.1
    err := r.2
    finalLog := appendLog fs.downloadedTxt (loggedIds r.1) }

/-- On-disk state after a run: the completion log is the final log of the run,
and the catalog cache holds the written content when the cold path ran. -/
def fsAfter (fs : FS) (r : RunResult) : FS :=
  { downloadedTxt := r.finalLog
    formdataDat :=
      match r.formdataWritten with
      | some w => some w
      | none => fs.formdataDat }

/-- Error block printed by `error` (lines 140-148): the labeled banner, the
exception type and the message. -/
def errorBlock (msg : Str) (excName : Str) (label : Option Str) : List Str :=
  (match label with
    | some l => [txt "\n***FUI-KK ERROR: " ++ l ++ txt "***"]
    | none => [txt "\n***FUI-KK ERROR***"]) ++
  [txt "Exception: " ++ excName ++ txt "\n"] ++ [msg]

/-- Remediation message of the encoding fault (lines 187-193); the
apostrophe of the source text is spelled via its character code. -/
def encodingMsg (name fid : Str) : Str :=
  txt "Form id=" ++ fid ++ txt "\nForm name: " ++ name ++
  txt "\nYour terminal probably doesn" ++ [Char.ofNat 39] ++
  txt "t like unicode.\nTo fix this on windows, change codepage using this command:\nchcp 65001"

/-- Advisory message of the exhausted-redirects fault (lines 230-232); the
apostrophe of the source text is spelled via its character code. -/
def nettskjemaMsg : Str :=
  txt "Sometimes nettskjema doesn" ++ [Char.ofNat 39] ++
  txt "t like us.\nJust wait a little while and continue\nby rerunning script."

/-- Process-level outcome of `main` (lines 220-235): the lines printed to
standard output and the exit status. A run with no fault exits 0; the
encoding fault prints its labeled block from inside `download_files` and
exits -1; the exhausted-redirects fault is caught at top level, prints its
labeled block and exits -1; a filesystem write fault is an uncaught
exception terminating the interpreter with status 1 and no labeled block. -/
def mainRun (env : Env) (args : Args) (fs : FS) : List Str × Int :=
  let r := download_files env args fs
  match r.err with
  | none => (printedOf r.trace, 0)
  | some (.encoding name fid) =>
      (printedOf r.trace ++
        errorBlock (encodingMsg name fid) (txt "UnicodeEncodeError") (some (txt "Non-unicode codepage")), -1)
  | some (.transport _) =>
      (printedOf r.trace ++
        errorBlock nettskjemaMsg (txt "TooManyRedirects") (some (txt "Nettskjema")), -1)
  | some (.writeFail _ _) => (printedOf r.trace, 1)


/-- Well-formed completion-log state: the file is absent, or its content is
a sequence of complete newline-terminated lines — the only shapes the
program itself produces (`f.write(form_id+"\n")`, line 218). -/
def WellFormedLog (o : Option Str) : Prop :=
  o = none ∨ ∃ lines : List Str, (∀ l ∈ lines, '\n' ∉ l) ∧ o = some (joinNl lines)

theorem splitNl_append_cons (i t : Str) (h : '\n' ∉ i) :
    splitNl (i ++ '\n' :: t) = i :: splitNl t := by
  induction i with
  | nil => simp [splitNl]
  | cons c i ih =>
    have hc : c ≠ '\n' := by
      intro hc
      exact h (by simp [hc])
    have hi : '\n' ∉ i := fun hm => h (List.mem_cons_of_mem _ hm)
    simp [splitNl, hc, ih hi, consHead]

theorem splitNl_joinNl (ids : List Str) (h : ∀ i ∈ ids, '\n' ∉ i) :
    splitNl (joinNl ids) = ids ++ [[]] := by
  induction ids with
  | nil => simp [joinNl, splitNl]
  | cons i ids ih =>
    have hi : '\n' ∉ i := h i (by simp)
    have hrest : ∀ j ∈ ids, '\n' ∉ j := fun j hj => h j (List.mem_cons_of_mem _ hj)
    simp [joinNl, splitNl_append_cons i _ hi, ih hrest]

theorem joinNl_append (a b : List Str) : joinNl (a ++ b) = joinNl a ++ joinNl b := by
  induction a with
  | nil => simp [joinNl]
  | cons i a ih => simp [joinNl, ih]

theorem read_list_appendLog (o : Option Str) (ids : List Str)
    (hwf : WellFormedLog o) (hids : ∀ i ∈ ids, '\n' ∉ i) :
    (∀ x ∈ read_list o, x ∈ read_list (appendLog o ids)) ∧
      (∀ i ∈ ids, i ∈ read_list (appendLog o ids)) := by
  rcases hwf with hnone | ⟨lines, hln, heq⟩
  · subst hnone
    cases ids with
    | nil => simp [appendLog]
    | cons i ids =>
      constructor
      · intro x hx
        simp [read_list] at hx
      · intro j hj
        have hsp : splitNl (joinNl (i :: ids)) = (i :: ids) ++ [[]] := splitNl_joinNl _ hids
        simp only [appendLog, read_list, List.nil_append, hsp]
        exact List.mem_append_left _ hj
  · subst heq
    cases ids with
    | nil => simp [appendLog]
    | cons i ids =>
      have hall : ∀ j ∈ lines ++ i :: ids, '\n' ∉ j := by
        intro j hj
        rcases List.mem_append.mp hj with hj | hj
        · exact hln j hj
        · exact hids j hj
      have hsplit : splitNl (joinNl lines ++ joinNl (i :: ids)) = (lines ++ i :: ids) ++ [[]] := by
        rw [← joinNl_append]
        exact splitNl_joinNl _ hall
      constructor
      · intro x hx
        simp only [read_list] at hx
        rw [splitNl_joinNl lines hln] at hx
        simp only [appendLog, read_list, hsplit]
        rcases List.mem_append.mp hx with hx | hx
        · exact List.mem_append_left _ (List.mem_append_left _ hx)
        · exact List.mem_append_right _ hx
      · intro j hj
        simp only [appendLog, read_list, hsplit]
        exact List.mem_append_left _ (List.mem_append_right _ hj)

theorem matchHere_digits (l ds : Str) (h : matchHere l = some ds) :
    ∀ c ∈ ds, c.isDigit = true := by
  unfold matchHere at h
  split at h
  · dsimp only at h
    split at h
    · exact absurd h (by simp)
    · intro c hc
      have hds : ds = (List.takeWhile Char.isDigit _).take 10 :=
        (Option.some_inj.mp h).symm
      subst hds
      exact List.mem_takeWhile_imp (List.take_subset _ _ hc)
  · exact absurd h (by simp)

theorem get_id_digits (u : Str) : ∀ c ∈ get_id u, c.isDigit = true := by
  show ∀ c ∈ get_id_core u, c.isDigit = true
  induction u with
  | nil => simp [get_id_core]
  | cons a rest ih =>
    simp only [get_id_core]
    cases h : matchHere (a :: rest) with
    | some ds => exact matchHere_digits _ _ h
    | none => exact ih

theorem get_id_no_newline (u : Str) : '\n' ∉ get_id u := by
  intro h
  have := get_id_digits u '\n' h
  simp [Char.isDigit] at this

@[simp] theorem loggedIds_nil : loggedIds [] = [] := rfl

@[simp] theorem loggedIds_cons_printed (l : Str) (evs : List Event) :
    loggedIds (.printed l :: evs) = loggedIds evs := rfl

@[simp] theorem loggedIds_cons_wrote (k : Kind) (n c : Str) (evs : List Event) :
    loggedIds (.wrote k n c :: evs) = loggedIds evs := rfl

@[simp] theorem loggedIds_cons_logged (i : Str) (evs : List Event) :
    loggedIds (.logged i :: evs) = i :: loggedIds evs := rfl

@[simp] theorem loggedIds_append (a b : List Event) :
    loggedIds (a ++ b) = loggedIds a ++ loggedIds b := by
  simp [loggedIds]

@[simp] theorem writesOf_nil : writesOf [] = [] := rfl

@[simp] theorem writesOf_cons_printed (l : Str) (evs : List Event) :
    writesOf (.printed l :: evs) = writesOf evs := rfl

@[simp] theorem writesOf_cons_wrote (k : Kind) (n c : Str) (evs : List Event) :
    writesOf (.wrote k n c :: evs) = (k, n, c) :: writesOf evs := rfl

@[simp] theorem writesOf_cons_logged (i : Str) (evs : List Event) :
    writesOf (.logged i :: evs) = writesOf evs := rfl

@[simp] theorem writesOf_append (a b : List Event) :
    writesOf (a ++ b) = writesOf a ++ writesOf b := by
  simp [writesOf]

theorem processItem_not_encodable (env : Env) (args : Args) (dl : List Str)
    (name url : Str) (h : env.encodable name = false) :
    processItem env args dl (name, url) = ([], some (.encoding name (get_id url))) := by
  simp [processItem, h]

theorem processItem_skip (env : Env) (args : Args) (dl : List Str) (name url : Str)
    (h1 : env.encodable name = true) (h2 : get_id url ∈ dl) :
    processItem env args dl (name, url) = ([.printed (skipLine name (get_id url))], none) := by
  simp [processItem, h1, h2]

theorem fetchKind_ok_shape (env : Env) (d : Bool) (k : Kind) (u nc : Str)
    (tr : Str → Str) (evs : List Event) (h : fetchKind env d k u nc tr = .ok evs) :
    (d = false ∧ evs = []) ∨ (d = true ∧ ∃ c, evs = [Event.wrote k nc c]) := by
  unfold fetchKind at h
  split at h
  · split at h
    · exact absurd h (by simp)
    · split at h
      · injection h with h
        exact Or.inr ⟨by assumption, _, h.symm⟩
      · exact absurd h (by simp)
  · injection h with h
    exact Or.inl ⟨by simp_all, h.symm⟩

theorem writeKind_ok_shape (env : Env) (d : Bool) (k : Kind) (nc content : Str)
    (evs : List Event) (h : writeKind env d k nc content = .ok evs) :
    (d = false ∧ evs = []) ∨ (d = true ∧ ∃ c, evs = [Event.wrote k nc c]) := by
  unfold writeKind at h
  split at h
  · split at h
    · injection h with h
      exact Or.inr ⟨by assumption, _, h.symm⟩
    · exact absurd h (by simp)
  · injection h with h
    exact Or.inl ⟨by simp_all, h.symm⟩

theorem fetchKind_ok_logged (env : Env) (d : Bool) (k : Kind) (u nc : Str)
    (tr : Str → Str) (evs : List Event) (h : fetchKind env d k u nc tr = .ok evs) :
    loggedIds evs = [] := by
  rcases fetchKind_ok_shape env d k u nc tr evs h with ⟨_, rfl⟩ | ⟨_, c, rfl⟩ <;> simp

theorem writeKind_ok_logged (env : Env) (d : Bool) (k : Kind) (nc content : Str)
    (evs : List Event) (h : writeKind env d k nc content = .ok evs) :
    loggedIds evs = [] := by
  rcases writeKind_ok_shape env d k nc content evs h with ⟨_, rfl⟩ | ⟨_, c, rfl⟩ <;> simp

theorem processItem_notskip_shape (env : Env) (args : Args) (dl : List Str) (name url : Str)
    (h1 : env.encodable name = true) (h2 : get_id url ∉ dl) :
    (∃ front,
        processItem env args dl (name, url) = (front ++ [Event.logged (get_id url)], none) ∧
        loggedIds front = [] ∧
        (∀ k, requested args k = true → ∃ c, Event.wrote k (env.fclean name) c ∈ front)) ∨
    (∃ evs e, processItem env args dl (name, url) = (evs, some e) ∧ loggedIds evs = []) := by
  cases hT : fetchKind env args.tsv .tsv (tsvUrlOf url) (env.fclean name) (fun b => b) with
  | error e =>
    right
    exact ⟨[Event.printed (fetchLine name (get_id url))], e,
      by simp [processItem, h1, h2, hT], by simp⟩
  | ok evT =>
    have hlT := fetchKind_ok_logged _ _ _ _ _ _ _ hT
    cases hH : fetchKind env args.html .html (htmlUrlOf url) (env.fclean name)
        (fun b => render_html name (statsOf env url) b) with
    | error e =>
      right
      exact ⟨Event.printed (fetchLine name (get_id url)) :: evT, e,
        by simp [processItem, h1, h2, hT, hH], by simp [hlT]⟩
    | ok evH =>
      have hlH := fetchKind_ok_logged _ _ _ _ _ _ _ hH
      cases hS : writeKind env args.stats .stats (env.fclean name)
          (statsJson (statsOf env url)) with
      | error e =>
        right
        exact ⟨Event.printed (fetchLine name (get_id url)) :: (evT ++ evH), e,
          by simp [processItem, h1, h2, hT, hH, hS], by simp [hlT, hlH]⟩
      | ok evS =>
        have hlS := writeKind_ok_logged _ _ _ _ _ _ hS
        left
        refine ⟨[Event.printed (fetchLine name (get_id url))] ++ evT ++ evH ++ evS, ?_, ?_, ?_⟩
        · simp [processItem, h1, h2, hT, hH, hS]
        · simp [hlT, hlH, hlS]
        · intro k hk
          cases k with
          | tsv =>
            rcases fetchKind_ok_shape _ _ _ _ _ _ _ hT with ⟨hd, _⟩ | ⟨_, c, rfl⟩
            · rw [requested] at hk
              exact absurd hk (by simp [hd])
            · exact ⟨c, by simp⟩
          | html =>
            rcases fetchKind_ok_shape _ _ _ _ _ _ _ hH with ⟨hd, _⟩ | ⟨_, c, rfl⟩
            · rw [requested] at hk
              exact absurd hk (by simp [hd])
            · exact ⟨c, by simp⟩
          | stats =>
            rcases writeKind_ok_shape _ _ _ _ _ _ hS with ⟨hd, _⟩ | ⟨_, c, rfl⟩
            · rw [requested] at hk
              exact absurd hk (by simp [hd])
            · exact ⟨c, by simp⟩

theorem processItem_err_no_log (env : Env) (args : Args) (dl : List Str) (it : Str × Str)
    (e : RunError) (h : (processItem env args dl it).2 = some e) :
    loggedIds (processItem env args dl it).1 = [] := by
  obtain ⟨name, url⟩ := it
  cases h1 : env.encodable name with
  | false => simp [processItem_not_encodable env args dl name url h1]
  | true =>
    by_cases h2 : get_id url ∈ dl
    · simp [processItem_skip env args dl name url h1 h2]
    · rcases processItem_notskip_shape env args dl name url h1 h2 with
        ⟨front, heq, _, _⟩ | ⟨evs, e', heq, hlog⟩
      · rw [heq] at h
        simp at h
      · rw [heq]
        exact hlog

theorem processItem_ok_encodable (env : Env) (args : Args) (dl : List Str) (name url : Str)
    (h : (processItem env args dl (name, url)).2 = none) : env.encodable name = true := by
  cases h1 : env.encodable name with
  | true => rfl
  | false =>
    rw [processItem_not_encodable env args dl name url h1] at h
    simp at h

theorem processItem_ok_covered (env : Env) (args : Args) (dl : List Str) (name url : Str)
    (h : (processItem env args dl (name, url)).2 = none) :
    get_id url ∈ dl ∨ loggedIds (processItem env args dl (name, url)).1 = [get_id url] := by
  have h1 := processItem_ok_encodable env args dl name url h
  by_cases h2 : get_id url ∈ dl
  · exact Or.inl h2
  · right
    rcases processItem_notskip_shape env args dl name url h1 h2 with
      ⟨front, heq, hlog, _⟩ | ⟨evs, e, heq, _⟩
    · rw [heq]
      simp [hlog]
    · rw [heq] at h
      simp at h

theorem processItem_logged_all (env : Env) (args : Args) (dl : List Str) (name url : Str) :
    ∀ x ∈ loggedIds (processItem env args dl (name, url)).1, x = get_id url := by
  cases h1 : env.encodable name with
  | false => simp [processItem_not_encodable env args dl name url h1]
  | true =>
    by_cases h2 : get_id url ∈ dl
    · simp [processItem_skip env args dl name url h1 h2, loggedIds]
    · rcases processItem_notskip_shape env args dl name url h1 h2 with
        ⟨front, heq, hlog, _⟩ | ⟨evs, e, heq, hlog⟩
      · rw [heq]
        simp [hlog]
      · rw [heq]
        simp [hlog]

theorem runItems_cons (env : Env) (args : Args) (dl : List Str) (it : Str × Str)
    (rest : List (Str × Str)) :
    runItems env args dl (it :: rest) =
      match (processItem env args dl it).2 with
      | some e => ((processItem env args dl it).1, some e)
      | none =>
        ((processItem env args dl it).1 ++ (runItems env args dl rest).1,
          (runItems env args dl rest).2) := rfl

theorem runItems_ok_encodable (env : Env) (args : Args) (dl : List Str)
    (items : List (Str × Str)) (h : (runItems env args dl items).2 = none) :
    ∀ it ∈ items, env.encodable it.1 = true := by
  induction items with
  | nil => simp
  | cons it rest ih =>
    cases hp : (processItem env args dl it).2 with
    | some e =>
      rw [runItems_cons] at h
      simp [hp] at h
    | none =>
      have hres : (runItems env args dl rest).2 = none := by
        rw [runItems_cons] at h
        simpa [hp] using h
      intro x hx
      rcases List.mem_cons.mp hx with rfl | hx
      · obtain ⟨name, url⟩ := x
        exact processItem_ok_encodable env args dl name url hp
      · exact ih hres x hx

theorem runItems_ok_covered (env : Env) (args : Args) (dl : List Str)
    (items : List (Str × Str)) (h : (runItems env args dl items).2 = none) :
    ∀ it ∈ items, get_id it.2 ∈ dl ∨ get_id it.2 ∈ loggedIds (runItems env args dl items).1 := by
  induction items with
  | nil => simp
  | cons it rest ih =>
    cases hp : (processItem env args dl it).2 with
    | some e =>
      rw [runItems_cons] at h
      simp [hp] at h
    | none =>
      have hres : (runItems env args dl rest).2 = none := by
        rw [runItems_cons] at h
        simpa [hp] using h
      have hsplit : (runItems env args dl (it :: rest)).1 =
          (processItem env args dl it).1 ++ (runItems env args dl rest).1 := by
        rw [runItems_cons]
        simp [hp]
      intro x hx
      rcases List.mem_cons.mp hx with rfl | hx
      · obtain ⟨name, url⟩ := x
        rcases processItem_ok_covered env args dl name url hp with hdl | hlog
        · exact Or.inl hdl
        · right
          rw [hsplit, loggedIds_append, hlog]
          simp
      · rcases ih hres x hx with hdl | hlog
        · exact Or.inl hdl
        · right
          rw [hsplit, loggedIds_append]
          exact List.mem_append_right _ hlog

theorem runItems_logged_getid (env : Env) (args : Args) (dl : List Str)
    (items : List (Str × Str)) :
    ∀ x ∈ loggedIds (runItems env args dl items).1, ∃ it ∈ items, x = get_id it.2 := by
  induction items with
  | nil => simp [runItems]
  | cons it rest ih =>
    cases hp : (processItem env args dl it).2 with
    | some e =>
      have hsplit : (runItems env args dl (it :: rest)).1 = (processItem env args dl it).1 := by
        rw [runItems_cons]
        simp [hp]
      rw [hsplit]
      intro x hx
      obtain ⟨n, u⟩ := it
      exact ⟨(n, u), by simp, processItem_logged_all env args dl n u x hx⟩
    | none =>
      have hsplit : (runItems env args dl (it :: rest)).1 =
          (processItem env args dl it).1 ++ (runItems env args dl rest).1 := by
        rw [runItems_cons]
        simp [hp]
      rw [hsplit]
      intro x hx
      rw [loggedIds_append] at hx
      rcases List.mem_append.mp hx with hx | hx
      · obtain ⟨n, u⟩ := it
        exact ⟨(n, u), by simp, processItem_logged_all env args dl n u x hx⟩
      · obtain ⟨it', hit', hx'⟩ := ih x hx
        exact ⟨it', List.mem_cons_of_mem _ hit', hx'⟩

theorem runItems_logged_no_newline (env : Env) (args : Args) (dl : List Str)
    (items : List (Str × Str)) :
    ∀ x ∈ loggedIds (runItems env args dl items).1, '\n' ∉ x := by
  intro x hx
  obtain ⟨it, _, rfl⟩ := runItems_logged_getid env args dl items x hx
  exact get_id_no_newline it.2

theorem runItems_all_skip (env : Env) (args : Args) (dl : List Str)
    (items : List (Str × Str))
    (h : ∀ it ∈ items, env.encodable it.1 = true ∧ get_id it.2 ∈ dl) :
    runItems env args dl items =
      (items.map (fun it => Event.printed (skipLine it.1 (get_id it.2))), none) := by
  induction items with
  | nil => rfl
  | cons it rest ih =>
    obtain ⟨name, url⟩ := it
    have h1 := (h (name, url) (by simp)).1
    have h2 := (h (name, url) (by simp)).2
    have hrest : ∀ it ∈ rest, env.encodable it.1 = true ∧ get_id it.2 ∈ dl :=
      fun it hit => h it (List.mem_cons_of_mem _ hit)
    rw [runItems_cons]
    simp [processItem_skip env args dl name url h1 h2, ih hrest]

theorem loggedIds_map_printed {α : Type} (f : α → Str) (l : List α) :
    loggedIds (l.map fun a => Event.printed (f a)) = [] := by
  induction l with
  | nil => rfl
  | cons a l ih => simpa using ih

theorem writesOf_map_printed {α : Type} (f : α → Str) (l : List α) :
    writesOf (l.map fun a => Event.printed (f a)) = [] := by
  induction l with
  | nil => rfl
  | cons a l ih => simpa using ih

theorem writesOf_filterEvents (filt : Option Str) (fd : List (Str × Str)) :
    writesOf (filterEvents filt fd) = [] := by
  cases filt with
  | none => rfl
  | some f =>
    by_cases hf : f.isEmpty <;> simp [filterEvents, hf, writesOf]

theorem appendLog_nil (o : Option Str) : appendLog o [] = o := rfl

theorem download_files_err (env : Env) (args : Args) (fs : FS) :
    (download_files env args fs).err =
      (runItems env args (read_list fs.downloadedTxt)
        (applyFilter args.filter (loadCatalog env fs).1)).2 := rfl

theorem download_files_finalLog (env : Env) (args : Args) (fs : FS) :
    (download_files env args fs).finalLog =
      appendLog fs.downloadedTxt
        (loggedIds (runItems env args (read_list fs.downloadedTxt)
          (applyFilter args.filter (loadCatalog env fs).1)).1) := rfl

theorem download_files_trace (env : Env) (args : Args) (fs : FS) :
    (download_files env args fs).trace =
      filterEvents args.filter (loadCatalog env fs).1 ++
        (runItems env args (read_list fs.downloadedTxt)
          (applyFilter args.filter (loadCatalog env fs).1)).1 := rfl

theorem download_files_catalog (env : Env) (args : Args) (fs : FS) :
    (download_files env args fs).catalog = (loadCatalog env fs).1 := rfl

theorem loadCatalog_after_fst (env : Env) (args : Args) (fs : FS) :
    (loadCatalog env (fsAfter fs (download_files env args fs))).1 = (loadCatalog env fs).1 := by
  rcases fs with ⟨dltxt, fdd⟩
  cases fdd with
  | none =>
    by_cases he : env.liveForms.isEmpty <;>
      simp [download_files, loadCatalog, fsAfter, he]
  | some fd =>
    by_cases hfd : fd.isEmpty
    · by_cases he : env.liveForms.isEmpty <;>
        simp [download_files, loadCatalog, fsAfter, hfd, he]
    · simp [download_files, loadCatalog, fsAfter, hfd]

/-- C1: running the Orchestrator twice against the same output directory
with the same requested artifact kinds downloads each form identifier at
most once — starting from a well-formed completion log, after a first run
that finished without a fatal fault, the second run ends with the same
completion log, performs no artifact write at all (in particular rewrites
no artifact file of an already-completed identifier), finishes without a
fault, and prints the skip line for every catalog entry (every identifier
present in the completion log is skipped). -/
theorem C1_idempotent_resume (env : Env) (args : Args) (fs : FS)
    (hwf : WellFormedLog fs.downloadedTxt)
    (hok : (download_files env args fs).err = none) :
    (download_files env args (fsAfter fs (download_files env args fs))).finalLog =
        (download_files env args fs).finalLog ∧
    writesOf (download_files env args (fsAfter fs (download_files env args fs))).trace = [] ∧
    (download_files env args (fsAfter fs (download_files env args fs))).err = none ∧
    ∀ it ∈ applyFilter args.filter (download_files env args fs).catalog,
      Event.printed (skipLine it.1 (get_id it.2)) ∈
        (download_files env args (fsAfter fs (download_files env args fs))).trace := by
  rw [download_files_err] at hok
  have hids := runItems_logged_no_newline env args (read_list fs.downloadedTxt)
    (applyFilter args.filter (loadCatalog env fs).1)
  have happend := read_list_appendLog fs.downloadedTxt
    (loggedIds (runItems env args (read_list fs.downloadedTxt)
      (applyFilter args.filter (loadCatalog env fs).1)).1) hwf hids
  have hdl2 : (fsAfter fs (download_files env args fs)).downloadedTxt =
      (download_files env args fs).finalLog := rfl
  have hcat2 : (loadCatalog env (fsAfter fs (download_files env args fs))).1 =
      (loadCatalog env fs).1 := loadCatalog_after_fst env args fs
  have hcond : ∀ it ∈ applyFilter args.filter (loadCatalog env fs).1,
      env.encodable it.1 = true ∧
        get_id it.2 ∈ read_list (download_files env args fs).finalLog := by
    intro it hit
    refine ⟨runItems_ok_encodable env args _ _ hok it hit, ?_⟩
    rw [download_files_finalLog]
    rcases runItems_ok_covered env args _ _ hok it hit with hdl | hlg
    · exact happend.1 _ hdl
    · exact happend.2 _ hlg
  have hrun2 : runItems env args (read_list (download_files env args fs).finalLog)
      (applyFilter args.filter (loadCatalog env fs).1) =
      ((applyFilter args.filter (loadCatalog env fs).1).map
        (fun it => Event.printed (skipLine it.1 (get_id it.2))), none) :=
    runItems_all_skip env args _ _ hcond
  refine ⟨?_, ?_, ?_, ?_⟩
  · rw [download_files_finalLog env args (fsAfter fs (download_files env args fs)), hdl2,
      hcat2, hrun2]
    simp [loggedIds_map_printed, appendLog_nil]
  · rw [download_files_trace env args (fsAfter fs (download_files env args fs)), hdl2,
      hcat2, hrun2]
    simp [writesOf_filterEvents, writesOf_map_printed]
  · rw [download_files_err env args (fsAfter fs (download_files env args fs)), hdl2,
      hcat2, hrun2]
  · intro it hit
    rw [download_files_catalog] at hit
    rw [download_files_trace env args (fsAfter fs (download_files env args fs)), hdl2,
      hcat2, hrun2]
    refine List.mem_append_right _ ?_
    exact List.mem_map.mpr ⟨it, hit, rfl⟩

/-- Concrete environment for witness instances: two live forms, all
capabilities succeeding. -/
def envW : Env :=
  { liveForms := [(txt "Survey A", txt "https://n/preview.html?id=1"),
      (txt "Survey B", txt "https://n/preview.html?id=2")]
    dom := fun _ _ => some (txt "3")
    fetch := fun _ => some (txt "body")
    writeOk := fun _ _ => true
    encodable := fun _ => true
    fclean := fun n => n }

/-- Concrete arguments for witness instances: no filter, tsv only. -/
def argsW : Args := ⟨none, true, false, false⟩

/-- Concrete empty initial directory state for witness instances. -/
def fsW : FS := ⟨none, none⟩

/-- Witness for C1 at a concrete two-form environment: the hypotheses hold
and the idempotent-resume conclusion follows. -/
theorem C1_witness :
    WellFormedLog fsW.downloadedTxt ∧
    (download_files envW argsW fsW).err = none ∧
    ((download_files envW argsW (fsAfter fsW (download_files envW argsW fsW))).finalLog =
        (download_files envW argsW fsW).finalLog ∧
      writesOf (download_files envW argsW (fsAfter fsW (download_files envW argsW fsW))).trace = [] ∧
      (download_files envW argsW (fsAfter fsW (download_files envW argsW fsW))).err = none ∧
      ∀ it ∈ applyFilter argsW.filter (download_files envW argsW fsW).catalog,
        Event.printed (skipLine it.1 (get_id it.2)) ∈
          (download_files envW argsW (fsAfter fsW (download_files envW argsW fsW))).trace) :=
  ⟨Or.inl rfl, by decide, C1_idempotent_resume envW argsW fsW (Or.inl rfl) (by decide)⟩

/-- C2: a fatal fault while processing an entry leaves the completion log
untouched for that entry; when the entry is processed to completion its
identifier is appended as the last event, after a successful write of every
requested artifact kind; and a fatal fault terminates the run at that entry,
leaving the remaining entries unprocessed. -/
theorem C2_completion_log_boundary (env : Env) (args : Args) (dl : List Str) (name url : Str) :
    ((processItem env args dl (name, url)).2.isSome = true →
      loggedIds (processItem env args dl (name, url)).1 = []) ∧
    ((processItem env args dl (name, url)).2 = none → get_id url ∉ dl →
      ∃ front, (processItem env args dl (name, url)).1 = front ++ [Event.logged (get_id url)] ∧
        ∀ k, requested args k = true → ∃ c, Event.wrote k (env.fclean name) c ∈ front) ∧
    (∀ e rest, (processItem env args dl (name, url)).2 = some e →
      runItems env args dl ((name, url) :: rest) =
        ((processItem env args dl (name, url)).1, some e)) := by
  refine ⟨?_, ?_, ?_⟩
  · intro h
    obtain ⟨e, he⟩ := Option.isSome_iff_exists.mp h
    exact processItem_err_no_log env args dl (name, url) e he
  · intro hok h2
    have h1 := processItem_ok_encodable env args dl name url hok
    rcases processItem_notskip_shape env args dl name url h1 h2 with
      ⟨front, heq, _, hreq⟩ | ⟨evs, e, heq, _⟩
    · exact ⟨front, by rw [heq], hreq⟩
    · rw [heq] at hok
      simp at hok
  · intro e rest h
    rw [runItems_cons]
    simp [h]

/-- Witness for C2 at a concrete successful entry: the tsv kind is
requested, the fetch succeeds, and the logged identifier closes the trace
after the write. -/
theorem C2_witness :
    (processItem envW argsW [] (txt "Survey A", txt "https://n/preview.html?id=1")).2 = none ∧
    ∃ front,
      (processItem envW argsW [] (txt "Survey A", txt "https://n/preview.html?id=1")).1 =
        front ++ [Event.logged (get_id (txt "https://n/preview.html?id=1"))] ∧
      ∀ k, requested argsW k = true →
        ∃ c, Event.wrote k (envW.fclean (txt "Survey A")) c ∈ front :=
  ⟨by decide,
    (C2_completion_log_boundary envW argsW [] (txt "Survey A")
      (txt "https://n/preview.html?id=1")).2.1 (by decide) (by decide)⟩

theorem hasSub_append_right (a b needle : Str) (h : hasSub b needle = true) :
    hasSub (a ++ b) needle = true := by
  induction a with
  | nil => simpa using h
  | cons c a ih =>
    rw [List.cons_append, hasSub]
    split
    · rfl
    · exact ih

theorem hasSub_encodingMsg_chcp (name fid : Str) :
    hasSub (encodingMsg name fid) (txt "chcp 65001") = true := by
  unfold encodingMsg
  apply hasSub_append_right
  decide

/-- C7: a fatal error — an unrenderable form name or an exhausted-redirects
platform fault — makes the process print a labeled `***FUI-KK ERROR***`
block to standard output and exit with the nonzero status -1; the encoding
fault carries the remediation instruction (`chcp 65001`) and aborts the
entire run at the faulting entry, leaving every remaining entry
unprocessed, rather than skipping the item. -/
theorem C7_fatal_error_exit (env : Env) (args : Args) (fs : FS) :
    (∀ n i, (download_files env args fs).err = some (.encoding n i) →
      (mainRun env args fs).2 = -1 ∧ (mainRun env args fs).2 ≠ 0 ∧
      (∃ line ∈ (mainRun env args fs).1,
        hasSub line (txt "***FUI-KK ERROR: Non-unicode codepage***") = true) ∧
      (∃ line ∈ (mainRun env args fs).1, hasSub line (txt "chcp 65001") = true)) ∧
    (∀ u, (download_files env args fs).err = some (.transport u) →
      (mainRun env args fs).2 = -1 ∧ (mainRun env args fs).2 ≠ 0 ∧
      ∃ line ∈ (mainRun env args fs).1,
        hasSub line (txt "***FUI-KK ERROR: Nettskjema***") = true) ∧
    (∀ dl name url rest, env.encodable name = false →
      runItems env args dl ((name, url) :: rest) =
        ([], some (.encoding name (get_id url)))) := by
  refine ⟨?_, ?_, ?_⟩
  · intro n i herr
    have hmain : mainRun env args fs =
        (printedOf (download_files env args fs).trace ++
          errorBlock (encodingMsg n i) (txt "UnicodeEncodeError")
            (some (txt "Non-unicode codepage")), -1) := by
      unfold mainRun
      simp only [herr]
    rw [hmain]
    refine ⟨rfl, by norm_num, ?_, ?_⟩
    · refine ⟨txt "\n***FUI-KK ERROR: " ++ txt "Non-unicode codepage" ++ txt "***", ?_, by decide⟩
      exact List.mem_append_right _ (by simp [errorBlock])
    · refine ⟨encodingMsg n i, ?_, hasSub_encodingMsg_chcp n i⟩
      exact List.mem_append_right _ (by simp [errorBlock])
  · intro u herr
    have hmain : mainRun env args fs =
        (printedOf (download_files env args fs).trace ++
          errorBlock nettskjemaMsg (txt "TooManyRedirects") (some (txt "Nettskjema")), -1) := by
      unfold mainRun
      simp only [herr]
    rw [hmain]
    refine ⟨rfl, by norm_num, ?_⟩
    refine ⟨txt "\n***FUI-KK ERROR: " ++ txt "Nettskjema" ++ txt "***", ?_, by decide⟩
    exact List.mem_append_right _ (by simp [errorBlock])
  · intro dl name url rest h
    rw [runItems_cons]
    simp [processItem_not_encodable env args dl name url h]

/-- Concrete environment whose output encoding can render no form name,
for the C7 witness. -/
def envE : Env :=
  { liveForms := [(txt "Survey A", txt "https://n/preview.html?id=1")]
    dom := fun _ _ => some (txt "3")
    fetch := fun _ => some (txt "body")
    writeOk := fun _ _ => true
    encodable := fun _ => false
    fclean := fun n => n }

/-- Witness for C7: at the unencodable environment the run faults with the
encoding error and the process prints the labeled block, the remediation
line, and exits -1. -/
theorem C7_witness :
    (mainRun envE argsW fsW).2 = -1 ∧ (mainRun envE argsW fsW).2 ≠ 0 ∧
    (∃ line ∈ (mainRun envE argsW fsW).1,
      hasSub line (txt "***FUI-KK ERROR: Non-unicode codepage***") = true) ∧
    (∃ line ∈ (mainRun envE argsW fsW).1, hasSub line (txt "chcp 65001") = true) :=
  (C7_fatal_error_exit envE argsW fsW).1 (txt "Survey A") (txt "1") (by decide)

theorem infix_of_prefix {l₁ l₂ : List Char} (h : l₁ <+: l₂) : l₁ <:+: l₂ := by
  obtain ⟨t, ht⟩ := h
  exact ⟨[], t, by simp [ht]⟩

theorem hasSub_iff_infix (hay needle : Str) : hasSub hay needle = true ↔ needle <:+: hay := by
  induction hay with
  | nil =>
    rw [hasSub]
    constructor
    · intro h
      split at h
      · exact infix_of_prefix (List.isPrefixOf_iff_prefix.mp (by assumption))
      · exact absurd h (by simp)
    · intro h
      simp [List.infix_nil.mp h, List.isPrefixOf]
  | cons c t ih =>
    rw [hasSub]
    by_cases hp : needle.isPrefixOf (c :: t) = true
    · simp only [hp, if_true, true_iff]
      exact infix_of_prefix (List.isPrefixOf_iff_prefix.mp hp)
    · simp only [hp, if_false, Bool.false_eq_true]
      rw [ih, List.infix_cons_iff]
      constructor
      · exact Or.inr
      · rintro (h | h)
        · exact absurd (List.isPrefixOf_iff_prefix.mpr h) hp
        · exact h

theorem hasSub_nil_needle (hay : Str) : hasSub hay [] = true := by
  rw [hasSub.eq_def]
  simp [List.isPrefixOf]

/-- C5: the filter stage returns the catalog unchanged when no substring is
given; otherwise it returns exactly the subsequence of entries whose name
contains the substring (simple containment of the Python `in` operator),
preserving the original relative order, and the reported counts satisfy
matched ≤ total = |catalog|. -/
theorem C5_filter_correctness :
    (∀ fd : List (Str × Str), applyFilter none fd = fd) ∧
    ∀ (f : Str) (fd : List (Str × Str)),
      applyFilter (some f) fd = fd.filter (fun x => hasSub x.1 f) ∧
      List.Sublist (applyFilter (some f) fd) fd ∧
      (∀ x ∈ applyFilter (some f) fd, hasSub x.1 f = true) ∧
      (∀ x ∈ fd, hasSub x.1 f = true → x ∈ applyFilter (some f) fd) ∧
      (filterReport f fd).1 ≤ (filterReport f fd).2 ∧
      (filterReport f fd).2 = fd.length := by
  refine ⟨fun fd => rfl, fun f fd => ?_⟩
  have heq : applyFilter (some f) fd = fd.filter (fun x => hasSub x.1 f) := by
    have hred : applyFilter (some f) fd =
        if f.isEmpty = true then fd else fd.filter (fun x => hasSub x.1 f) := rfl
    by_cases hf : f.isEmpty = true
    · have hf' := List.isEmpty_iff.mp hf
      rw [hred, if_pos hf, hf']
      exact (List.filter_eq_self.mpr (fun x _ => hasSub_nil_needle x.1)).symm
    · rw [hred, if_neg hf]
  refine ⟨heq, ?_, ?_, ?_, ?_, rfl⟩
  · rw [heq]
    exact List.filter_sublist fd
  · intro x hx
    rw [heq] at hx
    exact (List.mem_filter.mp hx).2
  · intro x hx hsub
    rw [heq]
    exact List.mem_filter.mpr ⟨hx, hsub⟩
  · exact List.length_filter_le _ fd

/-- Witness for C5 at a concrete catalog and substring: the filter keeps
exactly the matching entry and is a subsequence of the catalog. -/
theorem C5_witness :
    applyFilter (some (txt "A")) envW.liveForms =
      [(txt "Survey A", txt "https://n/preview.html?id=1")] ∧
    List.Sublist (applyFilter (some (txt "A")) envW.liveForms) envW.liveForms :=
  ⟨by decide, (C5_filter_correctness.2 (txt "A") envW.liveForms).2.1⟩

theorem try_to_find_int_nonneg (dom : Str → Option Str) (sel : Str)
    (h : ∀ t, dom sel = some t → ∀ v : Int, pyInt t = some v → 0 ≤ v) :
    0 ≤ try_to_find_int dom sel := by
  unfold try_to_find_int
  cases hd : dom sel with
  | none => simp
  | some t =>
    cases hp : pyInt t with
    | none => simp [hp]
    | some v => simpa [hp] using h t hd v hp

/-- Concrete counter page whose delivered-submissions element renders the
text `-5`, for the C8 counterexample. -/
def dom8 : Str → Option Str := fun sel => if sel = selDelivered then some (txt "-5") else none

/-- Counterexample to C8 as stated: a DOM counter text of `-5` parses as the
negative integer -5, so the extracted record has a negative field — the
nonnegativity does not hold for every possible text content. -/
theorem C8_counterexample :
    (readStats dom8).answered = -5 ∧ (readStats dom8).answered < 0 ∧
    (readStats dom8).started = 0 ∧ (readStats dom8).invited = 0 := by
  refine ⟨by decide, by decide, by decide, by decide⟩

/-- C8 amended: every field of the extracted record is nonnegative provided
no counter text parses as a negative integer; a missing element or an
unparsable text still defaults to 0. -/
theorem C8_stats_nonneg (dom : Str → Option Str)
    (h : ∀ sel t, dom sel = some t → ∀ v : Int, pyInt t = some v → 0 ≤ v) :
    0 ≤ (readStats dom).answered ∧ 0 ≤ (readStats dom).started ∧
      0 ≤ (readStats dom).invited :=
  ⟨try_to_find_int_nonneg dom selDelivered (fun t ht v hv => h selDelivered t ht v hv),
    try_to_find_int_nonneg dom selSaved (fun t ht v hv => h selSaved t ht v hv),
    try_to_find_int_nonneg dom selInvited (fun t ht v hv => h selInvited t ht v hv)⟩

/-- Witness for the amended C8 at the page with no counter elements: all
three fields default to 0 and are nonnegative. -/
theorem C8_witness :
    0 ≤ (readStats (fun _ => none)).answered ∧ 0 ≤ (readStats (fun _ => none)).started ∧
      0 ≤ (readStats (fun _ => none)).invited :=
  C8_stats_nonneg (fun _ => none) (fun _ _ ht => nomatch ht)

/-- C9: each of the three DOM reads independently defaults to 0 on any
failure — a missing element or an unparsable text yields 0 for that field —
and each field of the extracted record depends only on the text of its own
selector, so a failure of one read never affects the other two; extraction
is total and never fails the run. -/
theorem C9_stats_independence :
    (∀ (dom : Str → Option Str) (sel : Str), dom sel = none → try_to_find_int dom sel = 0) ∧
    (∀ (dom : Str → Option Str) (sel : Str) (t : Str),
      dom sel = some t → pyInt t = none → try_to_find_int dom sel = 0) ∧
    (∀ dom : Str → Option Str,
      (readStats dom).answered = try_to_find_int dom selDelivered ∧
      (readStats dom).started = try_to_find_int dom selSaved ∧
      (readStats dom).invited = try_to_find_int dom selInvited) ∧
    (∀ d d' : Str → Option Str, d selDelivered = d' selDelivered →
      (readStats d).answered = (readStats d').answered) ∧
    (∀ d d' : Str → Option Str, d selSaved = d' selSaved →
      (readStats d).started = (readStats d').started) ∧
    (∀ d d' : Str → Option Str, d selInvited = d' selInvited →
      (readStats d).invited = (readStats d').invited) := by
  refine ⟨?_, ?_, fun dom => ⟨rfl, rfl, rfl⟩, ?_, ?_, ?_⟩
  · intro dom sel h
    simp [try_to_find_int, h]
  · intro dom sel t h hp
    simp [try_to_find_int, h, hp]
  · intro d d' h
    simp [readStats, try_to_find_int, h]
  · intro d d' h
    simp [readStats, try_to_find_int, h]
  · intro d d' h
    simp [readStats, try_to_find_int, h]

/-- Concrete counter page whose delivered-submissions element is missing
while the other two render the text `4`, for the C9 witness. -/
def dom9 : Str → Option Str := fun sel => if sel = selDelivered then none else some (txt "4")

/-- Witness for C9 at a page with one failing read: that field defaults to
0 and the other two are extracted normally. -/
theorem C9_witness :
    try_to_find_int dom9 selDelivered = 0 ∧
    (readStats dom9).started = 4 ∧ (readStats dom9).invited = 4 :=
  ⟨C9_stats_independence.1 dom9 selDelivered (by decide), by decide, by decide⟩

theorem get_id_core_no_match (u : Str) (h : ∀ i < u.length, matchHere (List.drop i u) = none) :
    get_id_core u = [] := by
  induction u with
  | nil => rfl
  | cons c rest ih =>
    have h0 : matchHere (c :: rest) = none := by simpa using h 0 (by simp)
    simp only [get_id_core, h0]
    apply ih
    intro i hi
    simpa using h (i + 1) (by simpa using Nat.succ_lt_succ hi)

theorem takeWhile_all_append (p : Char → Bool) (ds suf : Str)
    (hds : ∀ c ∈ ds, p c = true) (hsuf : ∀ c, suf.head? = some c → p c = false) :
    (ds ++ suf).takeWhile p = ds := by
  induction ds with
  | nil =>
    cases suf with
    | nil => rfl
    | cons c t =>
      have hc := hsuf c rfl
      simp [List.takeWhile_cons, hc]
  | cons c ds ih =>
    have hc := hds c (by simp)
    simp [List.takeWhile_cons, hc, ih (fun x hx => hds x (by simp [hx]))]

theorem take_isEmpty_false (ds : Str) (hne : ds ≠ []) : (ds.take 10).isEmpty = false := by
  cases ds with
  | nil => exact absurd rfl hne
  | cons c t => simp [List.take]

theorem get_id_first_match (pre ds suf : Str)
    (hpre : ∀ i < pre.length, matchHere (List.drop i (pre ++ txt "id=" ++ ds ++ suf)) = none)
    (hne : ds ≠ []) (hdig : ∀ c ∈ ds, c.isDigit = true)
    (hsuf : ∀ c, suf.head? = some c → c.isDigit = false) :
    get_id (pre ++ txt "id=" ++ ds ++ suf) = ds.take 10 := by
  induction pre with
  | nil =>
    have hflat : ([] : Str) ++ txt "id=" ++ ds ++ suf = 'i' :: 'd' :: '=' :: (ds ++ suf) := by
      simp [txt]
    rw [get_id, hflat]
    have hmh : matchHere ('i' :: 'd' :: '=' :: (ds ++ suf)) =
        some (((ds ++ suf).takeWhile Char.isDigit).take 10) := by
      rw [matchHere]
      rw [if_neg]
      rw [takeWhile_all_append Char.isDigit ds suf hdig hsuf]
      simp [take_isEmpty_false ds hne]
    rw [get_id_core, hmh, takeWhile_all_append Char.isDigit ds suf hdig hsuf]
  | cons c pre ih =>
    have hflat : (c :: pre) ++ txt "id=" ++ ds ++ suf =
        c :: (pre ++ txt "id=" ++ ds ++ suf) := by
      simp
    have h0 : matchHere (c :: (pre ++ txt "id=" ++ ds ++ suf)) = none := by
      have := hpre 0 (by simp)
      rw [hflat] at this
      simpa using this
    rw [get_id, hflat, get_id_core, h0]
    apply ih
    intro i hi
    have := hpre (i + 1) (by simpa using Nat.succ_lt_succ hi)
    rw [hflat] at this
    simpa using this

/-- Counterexample to C6 as stated: the URL `a?id=123456` contains the text
`id=12345`, yet extraction yields `123456` (the greedy match takes all six
digits), not `12345` — so "for every URL containing `id=12345`" fails under
plain substring containment. -/
theorem C6_counterexample :
    hasSub (txt "a?id=123456") (txt "id=12345") = true ∧
    get_id (txt "a?id=123456") ≠ txt "12345" ∧
    get_id (txt "a?id=123456") = txt "123456" :=
  ⟨by decide, by decide, by decide⟩

/-- C6 amended: for every URL in which an occurrence of `id=12345` is the
first match of `id=` followed by digits (no earlier match starts before it
and no further digit follows it), extraction yields `12345`; and for every
URL with no `id=<digits>` pattern anywhere, extraction yields the empty
text. -/
theorem C6_identifier_extraction (pre suf u : Str) :
    ((∀ i < pre.length, matchHere (List.drop i (pre ++ txt "id=12345" ++ suf)) = none) →
      (∀ c, suf.head? = some c → c.isDigit = false) →
      get_id (pre ++ txt "id=12345" ++ suf) = txt "12345") ∧
    ((∀ i < u.length, matchHere (List.drop i u) = none) → get_id u = txt "") := by
  constructor
  · intro hpre hsuf
    have hsplit : pre ++ txt "id=12345" ++ suf = pre ++ txt "id=" ++ txt "12345" ++ suf := by
      rw [List.append_assoc pre (txt "id=") (txt "12345")]
      rfl
    rw [hsplit] at hpre ⊢
    exact get_id_first_match pre (txt "12345") suf hpre (by decide) (by decide) hsuf
  · intro h
    exact get_id_core_no_match u h

/-- Witness for the amended C6 at a concrete URL with prefix and suffix:
extraction yields exactly `12345`. -/
theorem C6_witness :
    get_id (txt "a?" ++ txt "id=12345" ++ txt "&x") = txt "12345" ∧
    get_id (txt "https://x/preview.html") = txt "" :=
  ⟨(C6_identifier_extraction (txt "a?") (txt "&x") (txt "")).1 (by decide) (by decide),
    (C6_identifier_extraction (txt "") (txt "") (txt "https://x/preview.html")).2 (by decide)⟩

/-- C10: `get_id` yields the digits of the first `id=` followed by one to
ten digits match — the digits of the first such occurrence truncated to the
first ten — and the `id=` marker also matches inside longer parameter
names: a URL containing `grid=123` (and no earlier match) yields `123`. -/
theorem C10_first_match_truncation (pre ds suf : Str) :
    ((∀ i < pre.length, matchHere (List.drop i (pre ++ txt "id=" ++ ds ++ suf)) = none) →
      ds ≠ [] → (∀ c ∈ ds, c.isDigit = true) →
      (∀ c, suf.head? = some c → c.isDigit = false) →
      get_id (pre ++ txt "id=" ++ ds ++ suf) = ds.take 10) ∧
    get_id (txt "a?id=123456789012") = txt "1234567890" ∧
    get_id (txt "http://x?grid=123") = txt "123" :=
  ⟨get_id_first_match pre ds suf, by decide, by decide⟩

/-- Witness for C10: an identifier of eleven digits is truncated to its
first ten. -/
theorem C10_witness :
    get_id (txt "x?" ++ txt "id=" ++ txt "12345678901" ++ txt "&y") =
      (txt "12345678901").take 10 ∧
    (txt "12345678901").take 10 = txt "1234567890" :=
  ⟨(C10_first_match_truncation (txt "x?") (txt "12345678901") (txt "&y")).1
      (by decide) (by decide) (by decide) (by decide),
    by decide⟩

/-- Concrete environment for the C3 counterexample: one catalog entry whose
URL carries no identifier, everything else succeeding. -/
def env3 : Env :=
  { liveForms := []
    dom := fun _ _ => none
    fetch := fun _ => some (txt "body")
    writeOk := fun _ _ => true
    encodable := fun _ => true
    fclean := fun n => n }

/-- Arguments for the C3 counterexample: tsv only, no filter. -/
def args3 : Args := ⟨none, true, false, false⟩

/-- Directory state for the C3 counterexample: a completion log holding the
one real identifier `1` from an earlier completed item, and a cached
catalog with a single entry whose URL has no extractable identifier. -/
def fs3 : FS := ⟨some (txt "1\n"), some [(txt "Survey B", txt "https://n/preview.html")]⟩

/-- Counterexample to C3 as stated: the entry `Survey B` has the empty
identifier and was never downloaded, yet the run skips it as already
downloaded — merely because another item previously completed, the log
content `1\n` splits into `["1", ""]` and the empty identifier tests as
present. No artifact is written for it and the log is left at `1\n`. -/
theorem C3_counterexample :
    get_id (txt "https://n/preview.html") = txt "" ∧
    (download_files env3 args3 fs3).trace =
      [Event.printed (skipLine (txt "Survey B") (txt ""))] ∧
    writesOf (download_files env3 args3 fs3).trace = [] ∧
    (download_files env3 args3 fs3).finalLog = some (txt "1\n") :=
  ⟨by decide, by decide, by decide, by decide⟩

/-- C3 amended: an entry whose URL has no extractable identifier is treated
as having the empty-string identifier without error; however, whenever the
completion-log file exists with newline-terminated content — in particular
once any other item has completed — splitting the log on newlines yields a
trailing empty piece, so every empty-identifier entry is skipped as already
downloaded, producing only the skip line and no fetch, write or log
append. -/
theorem C3_empty_identifier (env : Env) (args : Args) (name url : Str) (lines : List Str)
    (hid : get_id url = txt "") (henc : env.encodable name = true)
    (hln : ∀ l ∈ lines, '\n' ∉ l) :
    processItem env args (read_list (some (joinNl lines))) (name, url) =
      ([Event.printed (skipLine name (txt ""))], none) := by
  have hmem : (txt "") ∈ read_list (some (joinNl lines)) := by
    simp only [read_list, splitNl_joinNl lines hln]
    exact List.mem_append_right _ (by simp [txt])
  have hskip := processItem_skip env args (read_list (some (joinNl lines))) name url henc
    (by rw [hid]; exact hmem)
  rw [hskip, hid]

/-- Witness for the amended C3: after a run that completed the identifier
`1`, an entry with no identifier is skipped. -/
theorem C3_witness :
    processItem env3 args3 (read_list (some (joinNl [txt "1"])))
      (txt "Survey B", txt "https://n/preview.html") =
      ([Event.printed (skipLine (txt "Survey B") (txt ""))], none) :=
  C3_empty_identifier env3 args3 (txt "Survey B") (txt "https://n/preview.html")
    [txt "1"] (by decide) rfl (by decide)

/-- Concrete environment for the C4 counterexample: one live form. -/
def env4 : Env :=
  { liveForms := [(txt "A", txt "u")]
    dom := fun _ _ => none
    fetch := fun _ => some (txt "body")
    writeOk := fun _ _ => true
    encodable := fun _ => true
    fclean := fun n => n }

/-- Arguments for the C4 instances: no kinds requested, no filter. -/
def args4 : Args := ⟨none, false, false, false⟩

/-- Directory state for the C4 counterexample: the catalog cache file
exists but deserializes to an empty catalog. -/
def fs4 : FS := ⟨none, some []⟩

/-- Counterexample to C4 as stated: the persisted catalog file exists (it
deserializes to the empty sequence), yet the run navigates to the
form-listing page once, rewrites the cache file, and returns the live
catalog instead of the deserialized content — Python `if not formdata:`
treats a persisted empty catalog like an absent one. -/
theorem C4_counterexample :
    fs4.formdataDat = some [] ∧
    (download_files env4 args4 fs4).listingNavs = 1 ∧
    (download_files env4 args4 fs4).formdataWritten = some [(txt "A", txt "u")] ∧
    (download_files env4 args4 fs4).catalog = [(txt "A", txt "u")] :=
  ⟨rfl, by decide, by decide, by decide⟩

/-- C4 amended: whenever the persisted catalog exists and is non-empty it
is deserialized and returned unchanged with no listing navigation and no
cache write; when it is absent — or deserializes to the empty catalog — the
run navigates to the form-listing page once, persists the discovered
sequence, and returns it. -/
theorem C4_catalog_cache (env : Env) (args : Args) (fs : FS) :
    (∀ fd, fs.formdataDat = some fd → fd ≠ [] →
      (download_files env args fs).catalog = fd ∧
      (download_files env args fs).listingNavs = 0 ∧
      (download_files env args fs).formdataWritten = none) ∧
    ((fs.formdataDat = none ∨ fs.formdataDat = some []) →
      (download_files env args fs).catalog = env.liveForms ∧
      (download_files env args fs).listingNavs = 1 ∧
      (download_files env args fs).formdataWritten = some env.liveForms) := by
  constructor
  · intro fd hfd hne
    have hfdE : fd.isEmpty = false := by
      cases fd with
      | nil => exact absurd rfl hne
      | cons a t => rfl
    refine ⟨?_, ?_, ?_⟩ <;> simp [download_files, loadCatalog, hfd, hfdE]
  · rintro (hfd | hfd) <;>
      exact ⟨by simp [download_files, loadCatalog, hfd],
        by simp [download_files, loadCatalog, hfd],
        by simp [download_files, loadCatalog, hfd]⟩

/-- Directory state with a non-empty persisted catalog, for the C4
witness. -/
def fs4b : FS := ⟨none, some [(txt "A", txt "u")]⟩

/-- Witness for the amended C4: with a non-empty persisted catalog the run
returns it unchanged, with no listing navigation and no cache write. -/
theorem C4_witness :
    (download_files env4 args4 fs4b).catalog = [(txt "A", txt "u")] ∧
    (download_files env4 args4 fs4b).listingNavs = 0 ∧
    (download_files env4 args4 fs4b).formdataWritten = none :=
  (C4_catalog_cache env4 args4 fs4b).1 [(txt "A", txt "u")] rfl (by decide)
